import Mathlib

/-!
# Shallow embedding of `kataras/basicauth` (basicauth.go, context.go)

Verification development for the Basic Access Authentication middleware.
Go machine integers are modelled as unbounded `Int`/`Nat` (no claim below
depends on overflow); `time.Time` instants and `time.Duration` values are
modelled as `Int` (nanoseconds), with `time.Time.Before` being strict `<`.
The in-memory credential store `map[string]*time.Time` is modelled as an
association list with map semantics (keys are unique in any state produced
by the operations; theorems that need uniqueness take it as a hypothesis).
Response-side effects (Set-Cookie writes) are collected in an ordered list.
The structured error values carry the fields the claims mention
(username, password, try counts); the static challenge-echo fields
(header name, formatted value, status code), which are constants of the
engine and mentioned by no claim, are omitted from the outcome type.
-/

namespace BasicAuthProof

/-- Instants (`time.Time`) and durations (`time.Duration`), in nanoseconds. -/
abbrev Time := Int

/-- Model of `DefaultCookieMaxAge = time.Hour` (basicauth.go line 22). -/
def DefaultCookieMaxAge : Time := 3600 * 1000000000

/-- Model of `DefaultMaxTriesCookie` (basicauth.go line 19). -/
def DefaultMaxTriesCookie : String := "basicmaxtries"

/-- Model of `authorizationHeaderKey` (basicauth.go line 32). -/
def authorizationHeaderKey : String := "Authorization"

/-- Model of `proxyAuthorizationHeaderKey` (basicauth.go line 33). -/
def proxyAuthorizationHeaderKey : String := "Proxy-Authorization"

/-- The value the verification predicate (`Allow`) may return as its
`interface{}` result, and which the engine attaches to the request context.
`simple` is `*SimpleUser` (the default pair-only identity, which implements
the `User` interface); `rich` is a caller-supplied value implementing the
`User` interface (exposing `GetUsername`/`GetPassword`); `opaqueUser` is a
caller-supplied value that does not implement `User` (the `tag` only
distinguishes distinct opaque values). -/
inductive UserVal where
  | simple (username password : String)
  | rich (username password : String) (tag : Nat)
  | opaqueUser (tag : Nat)
deriving DecidableEq, Repr

/-- The request context values stored by `newContext` (context.go lines 37-40):
the user value under `userContextKey` (`none` models a `nil` value, for which
`context.Value` returns `nil`) and whether a non-nil logout function is stored
under `logoutFuncContextKey` (a `nil` stored function fails the
`.(logoutFunc)` type assertion, so it is equivalent to absence). -/
structure Ctx where
  user : Option UserVal
  hasLogout : Bool
deriving DecidableEq, Repr

/-- The parts of `*http.Request` the middleware reads: `r.URL.Scheme`,
`r.TLS != nil`, `r.ProtoMajor`, the header map (canonical-name keyed),
the request cookies (name/value pairs), and the request context. -/
structure Request where
  urlScheme : String
  tls : Bool
  protoMajor : Nat
  headers : List (String × String)
  cookies : List (String × String)
  ctx : Ctx
deriving DecidableEq, Repr

/-- Model of `r.Header.Get(key)`: first value for the key, `""` when absent. -/
def headerGet (hs : List (String × String)) (key : String) : String :=
  match hs.find? (fun e => e.1 == key) with
  | some e => e.2
  | none => ""

/-- Model of `r.Header.Del(key)`: remove every value stored under the key. -/
def headerDel (hs : List (String × String)) (key : String) : List (String × String) :=
  hs.filter (fun e => e.1 != key)

/-- Model of `r.Cookie(name)`: the first request cookie with that name, if any. -/
def cookieGet (cs : List (String × String)) (name : String) : Option String :=
  (cs.find? (fun e => e.1 == name)).map (fun e => e.2)

/-- The credential store `credentials map[string]*time.Time`
(basicauth.go line 201): key = `username:password`, value = optional
expiration instant (`nil` pointer = no expiration). -/
abbrev Cache := List (String × Option Time)

/-- Go map lookup `expiresAt, ok := credentials[fullUser]`. -/
def cacheLookup (c : Cache) (k : String) : Option (Option Time) :=
  (c.find? (fun e => e.1 == k)).map (fun e => e.2)

/-- Go map `delete(credentials, fullUser)`. -/
def cacheErase (c : Cache) (k : String) : Cache :=
  c.filter (fun e => e.1 != k)

/-- Go map assignment `credentials[fullUser] = expiresAt`. -/
def cacheInsert (c : Cache) (k : String) (v : Option Time) : Cache :=
  cacheErase c k ++ [(k, v)]

/-- A Set-Cookie write on the response: `setCurrentTries` (value written is
`url.QueryEscape(strconv.Itoa(tries))`, which leaves decimal digits and the
minus sign unescaped; `maxAgeDur` is the duration used for `Expires`/`MaxAge`)
or `resetCurrentTries` (already-past `Expires`, `MaxAge: -1`). -/
inductive CookieOp where
  | set (name value : String) (maxAgeDur : Time)
  | reset (name : String)
deriving DecidableEq, Repr

/-- The terminal result of one request through `serveHTTP`: one of the five
structured error conditions handed to `handleError`, or `next r'` meaning the
wrapped handler was invoked with the augmented request `r'`. -/
inductive Outcome where
  | errHTTPVersion
  | errCredentialsMissing (header : String)
  | errCredentialsForbidden (username password : String) (tries : Int)
  | errCredentialsInvalid (username password : String) (currentTries : Int)
  | errCredentialsExpired (username password : String)
  | next (r : Request)
deriving DecidableEq, Repr

/-- Model of `Options` (basicauth.go lines 85-164), restricted to the fields the
authentication decision reads. `ErrorHandler`/`ErrorLogger` only format and
log the structured condition, and `GC.Every`/`GC.Context` only schedule the
pure `gc` pass; none of them alter the decision and they are not modelled. -/
structure Options where
  realm : String
  proxy : Bool
  httpsOnly : Bool
  maxAge : Time
  maxTries : Int
  maxTriesCookie : String
  onLogoutClearContext : Bool
deriving Repr

/-- Model of `AuthFunc` (basicauth.go line 72): the external verification predicate.
`none` models a `nil` user result. -/
abbrev AuthFunc := Request → String → String → Option UserVal × Bool

/-- Model of `BasicAuth` (basicauth.go lines 190-204): the options after `New`'s
defaulting, the request header name chosen from the proxy mode, and the
verification predicate. The store itself (`credentials`) is threaded
explicitly through the operations; the derived response-side constants
(`askCode`, `authenticateHeader`, `authenticateHeaderValue`) are omitted
as no claim concerns them. -/
structure BasicAuth where
  opts : Options
  authorizationHeader : String
  allow : AuthFunc

/-- Model of `New` (basicauth.go lines 230-274): header selection from proxy mode and
defaulting of the max-tries cookie name. -/
def New (opts : Options) (allow : AuthFunc) : BasicAuth :=
  let authorizationHeader :=
    if opts.proxy then proxyAuthorizationHeaderKey else authorizationHeaderKey
  let opts' :=
    if opts.maxTries > 0 && opts.maxTriesCookie == "" then
      { opts with maxTriesCookie := DefaultMaxTriesCookie }
    else opts
  { opts := opts', authorizationHeader := authorizationHeader, allow := allow }

/-! ## Header Codec

`decodeHeader` lives in user.go, which is not part of the provided sources.
Modelled from the spec: "value must begin with scheme token `Basic`
(case-insensitive) followed by whitespace and a base64 payload; payload must
decode successfully; decoded bytes must contain [a] `:` separator splitting
into username and password (password may itself contain `:`; only the first
separator counts). Any violation (missing scheme, bad base64, no separator)
yields failure with no partial output." -/

/-- Value of one standard base64 alphabet character. -/
def b64Val (c : Char) : Option Nat :=
  if 'A' ≤ c ∧ c ≤ 'Z' then some (c.toNat - 65)
  else if 'a' ≤ c ∧ c ≤ 'z' then some (c.toNat - 97 + 26)
  else if '0' ≤ c ∧ c ≤ '9' then some (c.toNat - 48 + 52)
  else if c = '+' then some 62
  else if c = '/' then some 63
  else none

/-- Standard base64 decoding of a character stream into bytes: quartets of
alphabet characters, with `=`/`==` padding allowed only in the final quartet. -/
def b64DecodeChars : List Char → Option (List Nat)
  | [] => some []
  | a :: b :: c :: d :: rest => do
      let va ← b64Val a
      let vb ← b64Val b
      if c = '=' then
        if d = '=' ∧ rest = [] then some [va * 4 + vb / 16] else none
      else do
        let vc ← b64Val c
        if d = '=' then
          if rest = [] then some [va * 4 + vb / 16, (vb % 16) * 16 + vc / 4]
          else none
        else do
          let vd ← b64Val d
          let tail ← b64DecodeChars rest
          some ((va * 4 + vb / 16) :: ((vb % 16) * 16 + vc / 4)
                :: ((vc % 4) * 64 + vd) :: tail)
  | _ => none

/-- Model of `base64.StdEncoding.DecodeString`, producing the decoded bytes as a
character list (one `Char` per byte value). -/
def b64Decode (s : String) : Option (List Char) :=
  (b64DecodeChars s.toList).map (fun bs => bs.map Char.ofNat)

/-- Split a character list at the first `:`. -/
def splitColon : List Char → Option (List Char × List Char)
  | [] => none
  | c :: rest =>
      if c = ':' then some ([], rest)
      else (splitColon rest).map (fun p => (c :: p.1, p.2))

/-- Modelled from the spec: the Header Codec contract of user.go's
`decodeHeader` (not under src/). Returns
`(fullUser, username, password)` on success — `fullUser` is the whole decoded
`username:password` string used as the cache key — and `none` on any
violation. -/
def decodeHeader (header : String) : Option (String × String × String) :=
  if ((header.toList.take 6).map Char.toLower) = "basic ".toList then
    match b64Decode (String.mk (header.toList.drop 6)) with
    | none => none
    | some bytes =>
      match splitColon bytes with
      | none => none
      | some (u, p) =>
        some (String.mk bytes, String.mk u, String.mk p)
  else none

/-! ## Attempt Throttle -/

/-- Parse a nonempty all-digit character list as a `Nat`. -/
def parseDigits (cs : List Char) (acc : Nat) : Option Nat :=
  match cs with
  | [] => some acc
  | c :: rest =>
      if '0' ≤ c ∧ c ≤ '9' then parseDigits rest (acc * 10 + (c.toNat - 48))
      else none

/-- Model of `strconv.Atoi` success value: optional sign followed by at least one
decimal digit. (Go's `int` range clamp on overflow is not modelled: integers
are unbounded here.) -/
def atoi : String → Option Int
  | s =>
    match s.toList with
    | [] => none
    | '+' :: rest =>
        if rest = [] then none else (parseDigits rest 0).map Int.ofNat
    | '-' :: rest =>
        if rest = [] then none else (parseDigits rest 0).map (fun n => -(n : Int))
    | l => (parseDigits l 0).map Int.ofNat

/-- Model of `getCurrentTries` (basicauth.go lines 316-324): the current attempt
count from the request's throttle cookie; the cookie-missing error and the
`Atoi` error are both discarded, so the count stays at its zero value in
those cases, while a successful parse (including of a negative number)
is returned as is. -/
def getCurrentTries (b : BasicAuth) (r : Request) : Int :=
  match cookieGet r.cookies b.opts.maxTriesCookie with
  | none => 0
  | some v => if v = "" then 0 else (atoi v).getD 0

/-- The cookie lifetime used by `setCurrentTries` (basicauth.go lines
327-330): the configured max-age, or one hour when it is zero. -/
def triesCookieMaxAge (b : BasicAuth) : Time :=
  if b.opts.maxAge = 0 then DefaultCookieMaxAge else b.opts.maxAge

/-- The Set-Cookie write performed by `setCurrentTries` (basicauth.go lines
326-342). `url.QueryEscape(strconv.Itoa(tries))` leaves digits and the minus
sign unescaped, so the value is the plain decimal rendering. -/
def setCurrentTriesOp (b : BasicAuth) (tries : Int) : CookieOp :=
  CookieOp.set b.opts.maxTriesCookie (toString tries) (triesCookieMaxAge b)

/-- Model of `isHTTPS` (basicauth.go lines 356-358):
`(strings.EqualFold(r.URL.Scheme, "https") || r.TLS != nil) && r.ProtoMajor == 2`. -/
def isHTTPS (r : Request) : Bool :=
  (r.urlScheme.toList.map Char.toLower == "https".toList || r.tls)
    && r.protoMajor == 2

/-! ## Auth Engine (`serveHTTP`, basicauth.go lines 372-483)

The per-request handler is split at its sequential blocks: the transport
check (`serveHTTP`), everything after it (`serveAfterTransport`), and the
cache-consult/attach block reached once the predicate has accepted
(`serveVerified`). The result is the terminal outcome, the credential store
after the request, and the ordered Set-Cookie writes. All `time.Now()`
calls during one request are modelled as the same instant `now`. -/

/-- Attach the resolved identity and the bound logout function to the
request context (basicauth.go lines 465-478): a `*SimpleUser` with the
decoded pair when the predicate returned no value. -/
def attachUser (r : Request) (user? : Option UserVal)
    (username password : String) : Request :=
  let user := match user? with
    | none => UserVal.simple username password
    | some u => u
  { r with ctx := { user := some user, hasLogout := true } }

/-- The cache-consult block for a verified request (basicauth.go lines
432-479): entry found with a past expiration is deleted and the request
fails as expired; entry found otherwise is left untouched; entry absent is
inserted with expiration `now + MaxAge` when `MaxAge > 0`, else with none. -/
def serveVerified (b : BasicAuth) (r : Request) (user? : Option UserVal)
    (fullUser username password : String) (ops : List CookieOp)
    (cache : Cache) (now : Time) : Outcome × Cache × List CookieOp :=
  match cacheLookup cache fullUser with
  | some (some t) =>
      if t < now then
        (Outcome.errCredentialsExpired username password,
         cacheErase cache fullUser, ops)
      else
        (Outcome.next (attachUser r user? username password), cache, ops)
  | some none =>
      (Outcome.next (attachUser r user? username password), cache, ops)
  | none =>
      let expiresAt : Option Time :=
        if b.opts.maxAge > 0 then some (now + b.opts.maxAge) else none
      (Outcome.next (attachUser r user? username password),
       cacheInsert cache fullUser expiresAt, ops)

/-- Model of `serveHTTP` after the transport check (basicauth.go lines 379-479):
header decoding, attempt-count read, predicate invocation, throttle
increment/threshold on rejection, throttle reset on acceptance, then the
cache-consult block. -/
def serveAfterTransport (b : BasicAuth) (r : Request) (cache : Cache)
    (now : Time) : Outcome × Cache × List CookieOp :=
  let header := headerGet r.headers b.authorizationHeader
  match decodeHeader header with
  | none => (Outcome.errCredentialsMissing header, cache, [])
  | some (fullUser, username, password) =>
    let maxTries := b.opts.maxTries
    let tries := if maxTries > 0 then getCurrentTries b r else 0
    match b.allow r username password with
    | (_, false) =>
        if maxTries > 0 then
          let tries' := tries + 1
          let ops := [setCurrentTriesOp b tries']
          if maxTries ≤ tries' then
            (Outcome.errCredentialsForbidden username password tries', cache, ops)
          else
            (Outcome.errCredentialsInvalid username password tries', cache, ops)
        else
          (Outcome.errCredentialsInvalid username password tries, cache, [])
    | (user?, true) =>
        let ops := if tries > 0 then [CookieOp.reset b.opts.maxTriesCookie] else []
        serveVerified b r user? fullUser username password ops cache now

/-- Model of `serveHTTP` (basicauth.go lines 372-483): one request through the
middleware, starting with the transport check. -/
def serveHTTP (b : BasicAuth) (r : Request) (cache : Cache) (now : Time) :
    Outcome × Cache × List CookieOp :=
  if b.opts.httpsOnly && !(isHTTPS r) then (Outcome.errHTTPVersion, cache, [])
  else serveAfterTransport b r cache now

/-! ## Request-scoped identity context (context.go) -/

/-- Model of `GetUser` (context.go lines 22-24). -/
def GetUser (r : Request) : Option UserVal :=
  r.ctx.user

/-- Model of `clearContext` (context.go lines 42-44): `newContext(ctx, nil, nil)`;
the stored `nil` logout function fails the later type assertion. -/
def clearContext : Ctx :=
  { user := none, hasLogout := false }

/-- Whether a `UserVal` implements the `User` interface, and its accessor
results when it does (`*SimpleUser` and rich users do; opaque values do not). -/
def userAccessors : UserVal → Option (String × String)
  | UserVal.simple u p => some (u, p)
  | UserVal.rich u p _ => some (u, p)
  | UserVal.opaqueUser _ => none

/-- Model of `colonLiteral` (user.go, not under src/): the `username:password`
separator of the cache key, per the comment on `credentials`
(basicauth.go line 200). -/
def colonLiteral : String := ":"

/-- The shared tail of `logout` (basicauth.go lines 507-526): when no
identity was determined from the stored user value (`ok = false`), fall back
to re-decoding the current authorization header (which overwrites the
partial values); then, when an identity was determined, strip the
authorization header(s) — the proxy form too when proxy mode is active —
and delete the identity's cache entry. -/
def logoutFinish (b : BasicAuth) (r : Request) (cache : Cache)
    (fullUser0 : String) (ok0 : Bool) : Request × Cache :=
  let (fullUser, ok) :=
    if ok0 then (fullUser0, true)
    else
      match decodeHeader (headerGet r.headers b.authorizationHeader) with
      | some (fu, _, _) => (fu, true)
      | none => ("", false)
  if ok then
    let hs := if b.opts.proxy then headerDel r.headers proxyAuthorizationHeaderKey
              else r.headers
    ({ r with headers := headerDel hs authorizationHeaderKey },
     cacheErase cache fullUser)
  else
    (r, cache)

/-- Model of `logout` (basicauth.go lines 486-527): determine the identity to
invalidate — from the stored user value when it implements `User` with
nonempty username and password, otherwise by re-decoding the current
authorization header — clear the context when so configured, and when an
identity was determined strip the authorization header(s) and delete its
cache entry. -/
def logout (b : BasicAuth) (r : Request) (cache : Cache) : Request × Cache :=
  match GetUser r with
  | some v =>
    let ident : String × Bool :=
      match userAccessors v with
      | some (un, pw) => (un ++ colonLiteral ++ pw, un ≠ "" && pw ≠ "")
      | none => ("", false)
    let r₁ := if b.opts.onLogoutClearContext then { r with ctx := clearContext } else r
    logoutFinish b r₁ cache ident.1 ident.2
  | none => logoutFinish b r cache "" false

/-- Model of `Logout` (context.go lines 28-34): invoke the logout function stored in
the request context, when one is present; the stored function is the
`logout` bound to the engine that authenticated the request. -/
def Logout (b : BasicAuth) (r : Request) (cache : Cache) : Request × Cache :=
  if r.ctx.hasLogout then logout b r cache else (r, cache)

/-! ## Credential-cache sweep (`gc`, basicauth.go lines 552-574) -/

/-- The sweep's staleness test on one entry value: marked for deletion when
`expiresAt == nil || expiresAt.Before(now)`. -/
def staleEntry (now : Time) : Option Time → Bool
  | none => true
  | some t => decide (t < now)

/-- Model of `gc` (basicauth.go lines 552-574): mark every entry with no expiration
or a past expiration, then delete the marked keys one at a time; returns the
swept store and the number of marked entries. -/
def gc (cache : Cache) (now : Time) : Cache × Nat :=
  let markedForDeletion := (cache.filter (fun e => staleEntry now e.2)).map (fun e => e.1)
  (markedForDeletion.foldl cacheErase cache, markedForDeletion.length)

/-! ## Concrete engines and requests used to instantiate the theorems -/

/-- A verification predicate accepting exactly `kataras:kataras_pass` and
returning no rich user value. -/
def exAllow : AuthFunc := fun _ u p =>
  if u == "kataras" && p == "kataras_pass" then (none, true) else (none, false)

/-- Engine with throttling threshold 2, no max-age, defaults otherwise. -/
def exEngine : BasicAuth :=
  New { realm := "Authorization Required", proxy := false, httpsOnly := false,
        maxAge := 0, maxTries := 2, maxTriesCookie := "",
        onLogoutClearContext := false } exAllow

/-- Engine with HTTPS-only enforcement and no throttling. -/
def exEngineHTTPS : BasicAuth :=
  New { realm := "Authorization Required", proxy := false, httpsOnly := true,
        maxAge := 0, maxTries := 0, maxTriesCookie := "",
        onLogoutClearContext := false } exAllow

/-- A fresh (never processed) plain-HTTP request carrying the given
authorization header value and cookies. -/
def exReq (hdr : String) (cookies : List (String × String)) : Request :=
  { urlScheme := "http", tls := false, protoMajor := 1,
    headers := [("Authorization", hdr)], cookies := cookies,
    ctx := { user := none, hasLogout := false } }

/-- The same request over TLS with HTTP/2. -/
def exReqSecure (hdr : String) : Request :=
  { urlScheme := "https", tls := true, protoMajor := 2,
    headers := [("Authorization", hdr)], cookies := [],
    ctx := { user := none, hasLogout := false } }

/-- Concrete `Basic` header for `kataras:kataras_pass` (accepted by `exAllow`). -/
def exHdrGood : String := "Basic a2F0YXJhczprYXRhcmFzX3Bhc3M="

/-- Concrete `Basic` header for `kataras:wrong` (rejected by `exAllow`). -/
def exHdrWrong : String := "Basic a2F0YXJhczp3cm9uZw=="

/-- A request that was authenticated with an opaque (non-`User`) value and
whose authorization header does not decode (wrong scheme). -/
def exReqOpaque : Request :=
  { urlScheme := "http", tls := false, protoMajor := 1,
    headers := [("Authorization", "Bearer abc")], cookies := [],
    ctx := { user := some (UserVal.opaqueUser 0), hasLogout := true } }

/-! ## Helper lemmas on the association-list cache -/

lemma cacheLookup_erase (c : Cache) (k k' : String) :
    cacheLookup (cacheErase c k) k' = if k' = k then none else cacheLookup c k' := by
  induction c with
  | nil => simp [cacheLookup, cacheErase]
  | cons e rest ih =>
    by_cases h1 : e.1 = k <;> by_cases h2 : e.1 = k' <;> by_cases h3 : k' = k <;>
      simp_all [cacheLookup, cacheErase, List.filter_cons, List.find?_cons]

lemma cacheLookup_erase_self (c : Cache) (k : String) :
    cacheLookup (cacheErase c k) k = none := by
  rw [cacheLookup_erase]; simp

lemma cacheLookup_erase_ne (c : Cache) (k k' : String) (h : k' ≠ k) :
    cacheLookup (cacheErase c k) k' = cacheLookup c k' := by
  rw [cacheLookup_erase]; simp [h]

lemma cacheLookup_append (c₁ c₂ : Cache) (k : String) :
    cacheLookup (c₁ ++ c₂) k =
      (cacheLookup c₁ k).orElse (fun _ => cacheLookup c₂ k) := by
  induction c₁ with
  | nil => simp [cacheLookup]
  | cons e rest ih =>
    simp only [cacheLookup, List.cons_append, List.find?_cons] at ih ⊢
    by_cases h : e.1 = k
    · simp [h]
    · have hb : (e.1 == k) = false := by simp [h]
      simp only [hb, if_neg]
      exact ih

lemma cacheLookup_insert_self (c : Cache) (k : String) (v : Option Time) :
    cacheLookup (cacheInsert c k v) k = some v := by
  unfold cacheInsert
  rw [cacheLookup_append, cacheLookup_erase_self]
  simp [cacheLookup]

lemma cacheLookup_insert_ne (c : Cache) (k : String) (v : Option Time)
    (k' : String) (h : k' ≠ k) :
    cacheLookup (cacheInsert c k v) k' = cacheLookup c k' := by
  unfold cacheInsert
  rw [cacheLookup_append, cacheLookup_erase_ne c k k' h]
  cases hv : cacheLookup c k' with
  | none =>
    have : (k == k') = false := by simp; exact fun hk => h hk.symm
    simp [cacheLookup, this]
  | some w => simp

/-! ## Stage lemmas on `serveHTTP` -/

lemma serveHTTP_pass (b : BasicAuth) (r : Request) (cache : Cache) (now : Time)
    (h : (b.opts.httpsOnly && !(isHTTPS r)) = false) :
    serveHTTP b r cache now = serveAfterTransport b r cache now := by
  unfold serveHTTP
  rw [h]
  simp

lemma serveAfterTransport_verified (b : BasicAuth) (r : Request) (cache : Cache)
    (now : Time) (fu u p : String) (q : Option UserVal)
    (h2 : decodeHeader (headerGet r.headers b.authorizationHeader) = some (fu, u, p))
    (h3 : b.allow r u p = (q, true)) :
    serveAfterTransport b r cache now =
      serveVerified b r q fu u p
        (if (if b.opts.maxTries > 0 then getCurrentTries b r else 0) > 0 then
          [CookieOp.reset b.opts.maxTriesCookie] else []) cache now := by
  unfold serveAfterTransport
  dsimp only
  rw [h2]
  dsimp only
  rw [h3]

lemma serveAfterTransport_rejected (b : BasicAuth) (r : Request) (cache : Cache)
    (now : Time) (fu u p : String) (q : Option UserVal)
    (h2 : decodeHeader (headerGet r.headers b.authorizationHeader) = some (fu, u, p))
    (h3 : b.allow r u p = (q, false)) :
    serveAfterTransport b r cache now =
      (if b.opts.maxTries > 0 then
        if b.opts.maxTries ≤ (if b.opts.maxTries > 0 then getCurrentTries b r else 0) + 1 then
          (Outcome.errCredentialsForbidden u p ((if b.opts.maxTries > 0 then getCurrentTries b r else 0) + 1), cache,
            [setCurrentTriesOp b ((if b.opts.maxTries > 0 then getCurrentTries b r else 0) + 1)])
        else
          (Outcome.errCredentialsInvalid u p ((if b.opts.maxTries > 0 then getCurrentTries b r else 0) + 1), cache,
            [setCurrentTriesOp b ((if b.opts.maxTries > 0 then getCurrentTries b r else 0) + 1)])
      else
        (Outcome.errCredentialsInvalid u p (if b.opts.maxTries > 0 then getCurrentTries b r else 0), cache, [])) := by
  unfold serveAfterTransport
  dsimp only
  rw [h2]
  dsimp only
  rw [h3]

lemma serveVerified_ops (b : BasicAuth) (r : Request) (q : Option UserVal)
    (fu u p : String) (ops : List CookieOp) (cache : Cache) (now : Time) :
    (serveVerified b r q fu u p ops cache now).2.2 = ops := by
  unfold serveVerified
  repeat' split
  all_goals rfl

lemma serveVerified_not_forbidden (b : BasicAuth) (r : Request) (q : Option UserVal)
    (fu u p : String) (ops : List CookieOp) (cache : Cache) (now : Time)
    (u' p' : String) (n : Int) :
    (serveVerified b r q fu u p ops cache now).1 ≠
      Outcome.errCredentialsForbidden u' p' n := by
  unfold serveVerified
  repeat' split
  all_goals simp

lemma serveVerified_next (b : BasicAuth) (r : Request) (q : Option UserVal)
    (fu u p : String) (ops : List CookieOp) (cache : Cache) (now : Time)
    (h : ∀ t, cacheLookup cache fu = some (some t) → ¬ t < now) :
    (serveVerified b r q fu u p ops cache now).1 =
      Outcome.next (attachUser r q u p) := by
  unfold serveVerified
  rcases hc : cacheLookup cache fu with _ | eh
  · rfl
  · rcases eh with _ | t
    · rfl
    · have ht := h t hc
      simp [ht]

lemma serveVerified_ne_httpVersion (b : BasicAuth) (r : Request)
    (q : Option UserVal) (fu u p : String) (ops : List CookieOp)
    (cache : Cache) (now : Time) :
    (serveVerified b r q fu u p ops cache now).1 ≠ Outcome.errHTTPVersion := by
  unfold serveVerified
  repeat' split
  all_goals simp

lemma serveAfterTransport_ne_httpVersion (b : BasicAuth) (r : Request)
    (cache : Cache) (now : Time) :
    (serveAfterTransport b r cache now).1 ≠ Outcome.errHTTPVersion := by
  unfold serveAfterTransport
  dsimp only
  rcases hdec : decodeHeader (headerGet r.headers b.authorizationHeader) with _ | ⟨fu, u, p⟩
  · simp
  · dsimp only
    rcases hallow : b.allow r u p with ⟨q, ok⟩
    cases ok
    · dsimp only
      repeat' split
      all_goals simp
    · dsimp only
      apply serveVerified_ne_httpVersion

lemma foldl_cacheErase (ks : List String) (c : Cache) :
    ks.foldl cacheErase c = c.filter (fun e => !(ks.contains e.1)) := by
  induction ks generalizing c with
  | nil => simp
  | cons k ks ih =>
    rw [List.foldl_cons, ih]
    unfold cacheErase
    rw [List.filter_filter]
    apply List.filter_congr
    intro e _
    by_cases h : e.1 = k <;> simp [h]

lemma headerGet_headerDel_self (hs : List (String × String)) (k : String) :
    headerGet (headerDel hs k) k = "" := by
  induction hs with
  | nil => rfl
  | cons e rest ih =>
    by_cases h : e.1 = k <;>
      simp_all [headerGet, headerDel, List.filter_cons, List.find?_cons]

lemma headerGet_headerDel_ne (hs : List (String × String)) (k k' : String)
    (h : k' ≠ k) : headerGet (headerDel hs k) k' = headerGet hs k' := by
  induction hs with
  | nil => rfl
  | cons e rest ih =>
    by_cases h1 : e.1 = k <;> by_cases h2 : e.1 = k' <;>
      simp_all [headerGet, headerDel, List.filter_cons, List.find?_cons]

lemma logoutFinish_ok (b : BasicAuth) (r : Request) (cache : Cache) (fu : String) :
    logoutFinish b r cache fu true =
      ({ r with headers :=
          headerDel (if b.opts.proxy then headerDel r.headers proxyAuthorizationHeaderKey
                     else r.headers) authorizationHeaderKey },
       cacheErase cache fu) := rfl

lemma logoutFinish_decodeSome (b : BasicAuth) (r : Request) (cache : Cache)
    (fu0 fu un pw : String)
    (hdec : decodeHeader (headerGet r.headers b.authorizationHeader) = some (fu, un, pw)) :
    logoutFinish b r cache fu0 false =
      ({ r with headers :=
          headerDel (if b.opts.proxy then headerDel r.headers proxyAuthorizationHeaderKey
                     else r.headers) authorizationHeaderKey },
       cacheErase cache fu) := by
  unfold logoutFinish
  rw [hdec]
  rfl

lemma logoutFinish_decodeNone (b : BasicAuth) (r : Request) (cache : Cache)
    (fu0 : String)
    (hdec : decodeHeader (headerGet r.headers b.authorizationHeader) = none) :
    logoutFinish b r cache fu0 false = (r, cache) := by
  unfold logoutFinish
  rw [hdec]
  rfl

lemma gc_eq_filter (c : Cache) (now : Time)
    (hnd : (c.map Prod.fst).Nodup) :
    (gc c now).1 = c.filter (fun e => !(staleEntry now e.2)) := by
  unfold gc
  dsimp only
  rw [foldl_cacheErase]
  apply List.filter_congr
  intro e he
  by_cases hs : staleEntry now e.2
  · have hmem : e.1 ∈ (c.filter (fun x => staleEntry now x.2)).map Prod.fst := by
      apply List.mem_map_of_mem
      exact List.mem_filter.mpr ⟨he, hs⟩
    simp [hs, hmem]
  · have hb : staleEntry now e.2 = false := by simpa using hs
    have hnmem : e.1 ∉ (c.filter (fun x => staleEntry now x.2)).map Prod.fst := by
      intro hmem
      rcases List.mem_map.mp hmem with ⟨x, hx, hx1⟩
      rcases List.mem_filter.mp hx with ⟨hxc, hxs⟩
      have : x = e := List.inj_on_of_nodup_map hnd hxc he hx1
      rw [this] at hxs
      rw [hb] at hxs
      exact Bool.false_ne_true hxs
    simp [hb, hnmem]

/-! ## Claim theorems -/

/-- Claim C2: For an engine with HTTPS-only enforcement configured, `serveHTTP`
terminates with the transport-policy condition (`errHTTPVersion`) if and only
if the request is not secure in the code's sense (`isHTTPS`: scheme `https`
or TLS present, and protocol major version 2); every secure request passes
the transport check and proceeds unchanged into the header-decoding stage
(`serveAfterTransport`). -/
theorem C2_httpsOnlyTransport (b : BasicAuth) (r : Request) (cache : Cache)
    (now : Time) (h : b.opts.httpsOnly = true) :
    ((serveHTTP b r cache now).1 = Outcome.errHTTPVersion ↔ isHTTPS r = false) ∧
    (isHTTPS r = true →
      serveHTTP b r cache now = serveAfterTransport b r cache now) := by
  constructor
  · constructor
    · intro hout
      cases hh : isHTTPS r
      · rfl
      · rw [serveHTTP_pass b r cache now (by simp [hh])] at hout
        exact absurd hout (serveAfterTransport_ne_httpVersion b r cache now)
    · intro hf
      unfold serveHTTP
      simp [h, hf]
  · intro ht
    exact serveHTTP_pass b r cache now (by simp [ht])

/-- Witness for C2: a plaintext HTTP/1.1 request is rejected with the
transport-policy condition, while a TLS HTTP/2 request reaches decoding. -/
theorem C2_httpsOnlyTransport_witness :
    (serveHTTP exEngineHTTPS (exReq exHdrGood []) [] 0).1 = Outcome.errHTTPVersion ∧
    serveHTTP exEngineHTTPS (exReqSecure exHdrGood) [] 0 =
      serveAfterTransport exEngineHTTPS (exReqSecure exHdrGood) [] 0 :=
  ⟨(C2_httpsOnlyTransport exEngineHTTPS (exReq exHdrGood []) [] 0 rfl).1.mpr
      (by decide),
   (C2_httpsOnlyTransport exEngineHTTPS (exReqSecure exHdrGood) [] 0 rfl).2
      (by decide)⟩

/-- Claim C7 counterexample: The throttle cookie value `"-1"` does not parse as
a non-negative integer, yet the attempt-count read returns the non-zero
count `-1` (Go's `Atoi` accepts a sign, and the discarded-error assignment
keeps the parsed value), refuting the claim that malformed input never
yields a non-zero count. -/
theorem C7_triesRead_counterexample :
    cookieGet (exReq "" [("basicmaxtries", "-1")]).cookies
      exEngine.opts.maxTriesCookie = some "-1" ∧
    getCurrentTries exEngine (exReq "" [("basicmaxtries", "-1")]) = -1 := by
  constructor
  · rfl
  · rfl

/-- Claim C7 amended: The attempt-count read returns 0 whenever the throttle
cookie is absent, its value is empty, or its value does not parse as a
(possibly signed) decimal integer; it never produces an error; a value that
does parse — including a negative one — is returned as the count. -/
theorem C7_triesReadAmended (b : BasicAuth) (r : Request) :
    (cookieGet r.cookies b.opts.maxTriesCookie = none → getCurrentTries b r = 0) ∧
    (∀ v, cookieGet r.cookies b.opts.maxTriesCookie = some v →
      (v = "" → getCurrentTries b r = 0) ∧
      (atoi v = none → getCurrentTries b r = 0) ∧
      (∀ n, atoi v = some n → getCurrentTries b r = n)) := by
  unfold getCurrentTries
  refine ⟨fun h => by rw [h], fun v hv => ?_⟩
  rw [hv]
  refine ⟨fun he => by simp [he], fun ha => ?_, fun n ha => ?_⟩
  · by_cases he : v = ""
    · simp [he]
    · simp [he, ha]
  · have he : v ≠ "" := by
      intro hcon
      rw [hcon] at ha
      have : atoi "" = none := rfl
      rw [this] at ha
      exact Option.noConfusion ha
    simp [he, ha]

/-- Witness for C7 (amended): no cookie yields 0, and a parsing value is
returned as is. -/
theorem C7_triesReadAmended_witness :
    getCurrentTries exEngine (exReq "" []) = 0 ∧
    getCurrentTries exEngine (exReq "" [("basicmaxtries", "7")]) = 7 :=
  ⟨(C7_triesReadAmended exEngine (exReq "" [])).1 rfl,
   ((C7_triesReadAmended exEngine (exReq "" [("basicmaxtries", "7")])).2
      "7" rfl).2.2 7 (by decide)⟩

/-- Claim C10: A request whose context carries no attached identity and no
logout capability — one never processed by the engine, or the result of a
prior context-clearing logout (`clearContext` stores `nil` under both keys) —
reads as absent via `GetUser`, and the public `Logout` returns the request
and the credential store unchanged, touching no header. -/
theorem C10_logoutNoop (b : BasicAuth) (r : Request) (cache : Cache)
    (hu : r.ctx.user = none) (hl : r.ctx.hasLogout = false) :
    GetUser r = none ∧ Logout b r cache = (r, cache) := by
  refine ⟨hu, ?_⟩
  unfold Logout
  rw [hl]
  simp

/-- Witness for C10 at a fresh request, and at the result of a
context-clearing logout. -/
theorem C10_logoutNoop_witness :
    (GetUser (exReq exHdrGood []) = none ∧
      Logout exEngine (exReq exHdrGood []) [] = (exReq exHdrGood [], [])) ∧
    (GetUser { exReqOpaque with ctx := clearContext } = none ∧
      Logout exEngine { exReqOpaque with ctx := clearContext } [] =
        ({ exReqOpaque with ctx := clearContext }, [])) :=
  ⟨C10_logoutNoop exEngine (exReq exHdrGood []) [] rfl rfl,
   C10_logoutNoop exEngine { exReqOpaque with ctx := clearContext } [] rfl rfl⟩

/-- Claim C3: For every request that passes the transport check, decodes to
credentials accepted by the verification predicate, and whose identity is
not found expired in the cache, the wrapped handler is invoked
(`Outcome.next`) and `GetUser` on the augmented request returns exactly the
predicate's returned identity, or a default `SimpleUser` carrying just the
decoded username and password when the predicate returned none. -/
theorem C3_identityResolution (b : BasicAuth) (r : Request) (cache : Cache)
    (now : Time) (fu u p : String) (q : Option UserVal)
    (h1 : (b.opts.httpsOnly && !(isHTTPS r)) = false)
    (h2 : decodeHeader (headerGet r.headers b.authorizationHeader) = some (fu, u, p))
    (h3 : b.allow r u p = (q, true))
    (h4 : ∀ t, cacheLookup cache fu = some (some t) → ¬ t < now) :
    ∃ r', (serveHTTP b r cache now).1 = Outcome.next r' ∧
      GetUser r' = some (match q with
        | none => UserVal.simple u p
        | some x => x) := by
  rw [serveHTTP_pass b r cache now h1,
      serveAfterTransport_verified b r cache now fu u p q h2 h3]
  refine ⟨attachUser r q u p,
    serveVerified_next b r q fu u p _ cache now h4, ?_⟩
  cases q <;> rfl

/-- Witness for C3: the concrete accepted pair yields the handler invocation
with the default identity attached. -/
theorem C3_identityResolution_witness :
    ∃ r', (serveHTTP exEngine (exReq exHdrGood []) [] 0).1 = Outcome.next r' ∧
      GetUser r' = some (UserVal.simple "kataras" "kataras_pass") :=
  C3_identityResolution exEngine (exReq exHdrGood []) [] 0
    "kataras:kataras_pass" "kataras" "kataras_pass" none
    (by decide) (by decide) (by decide)
    (fun t ht => by simp [cacheLookup] at ht)

/-- Claim C4: For every successfully verified request, the cache-consult step
leaves an existing unexpired entry (with or without expiration) completely
unchanged, inserts a new entry only when no entry exists — with expiration
`now + MaxAge` when max-age is configured (`> 0`) and no expiration
otherwise — and never touches entries of other identities. -/
theorem C4_cacheConsultFrame (b : BasicAuth) (r : Request) (cache : Cache)
    (now : Time) (fu u p : String) (q : Option UserVal)
    (h1 : (b.opts.httpsOnly && !(isHTTPS r)) = false)
    (h2 : decodeHeader (headerGet r.headers b.authorizationHeader) = some (fu, u, p))
    (h3 : b.allow r u p = (q, true)) :
    (∀ t, cacheLookup cache fu = some (some t) → ¬ t < now →
      (serveHTTP b r cache now).2.1 = cache) ∧
    (cacheLookup cache fu = some none → (serveHTTP b r cache now).2.1 = cache) ∧
    (cacheLookup cache fu = none → (serveHTTP b r cache now).2.1 =
      cacheInsert cache fu
        (if b.opts.maxAge > 0 then some (now + b.opts.maxAge) else none)) ∧
    (∀ k, k ≠ fu →
      cacheLookup ((serveHTTP b r cache now).2.1) k = cacheLookup cache k) := by
  rw [serveHTTP_pass b r cache now h1,
      serveAfterTransport_verified b r cache now fu u p q h2 h3]
  refine ⟨?_, ?_, ?_, ?_⟩
  · intro t ht hnl
    unfold serveVerified
    rw [ht]
    simp [hnl]
  · intro ht
    unfold serveVerified
    rw [ht]
  · intro ht
    unfold serveVerified
    rw [ht]
  · intro k hk
    unfold serveVerified
    rcases hc : cacheLookup cache fu with _ | eh
    · dsimp only
      rw [cacheLookup_insert_ne cache fu _ k hk]
    · rcases eh with _ | t
      · rfl
      · by_cases hlt : t < now
        · simp [hlt, cacheLookup_erase_ne cache fu k hk]
        · simp [hlt]

/-- Witness for C4: with no max-age and an empty store, the verified
identity is inserted without expiration. -/
theorem C4_cacheConsultFrame_witness :
    (serveHTTP exEngine (exReq exHdrGood []) [] 0).2.1 =
      cacheInsert [] "kataras:kataras_pass" none := by
  have h := (C4_cacheConsultFrame exEngine (exReq exHdrGood []) [] 0
    "kataras:kataras_pass" "kataras" "kataras_pass" none
    (by decide) (by decide) (by decide)).2.2.1 rfl
  simpa using h

/-- Claim C6: For every request rejected by the predicate with max-tries
configured (`> 0`), the cookie count is incremented by one and written back
as a cookie; the request terminates forbidden when the incremented count
reaches or exceeds the threshold, and otherwise invalid-credentials carrying
the current (incremented) try count; with max-tries 0 a rejected request
always terminates invalid-credentials (count 0) with no throttle cookie
written. -/
theorem C6_throttleOnRejection (b : BasicAuth) (r : Request) (cache : Cache)
    (now : Time) (fu u p : String) (q : Option UserVal)
    (h1 : (b.opts.httpsOnly && !(isHTTPS r)) = false)
    (h2 : decodeHeader (headerGet r.headers b.authorizationHeader) = some (fu, u, p))
    (h3 : b.allow r u p = (q, false)) :
    (b.opts.maxTries > 0 →
      (serveHTTP b r cache now).2.2 =
        [setCurrentTriesOp b (getCurrentTries b r + 1)] ∧
      (b.opts.maxTries ≤ getCurrentTries b r + 1 →
        (serveHTTP b r cache now).1 =
          Outcome.errCredentialsForbidden u p (getCurrentTries b r + 1)) ∧
      (getCurrentTries b r + 1 < b.opts.maxTries →
        (serveHTTP b r cache now).1 =
          Outcome.errCredentialsInvalid u p (getCurrentTries b r + 1))) ∧
    (b.opts.maxTries = 0 →
      (serveHTTP b r cache now).1 = Outcome.errCredentialsInvalid u p 0 ∧
      (serveHTTP b r cache now).2.2 = []) := by
  rw [serveHTTP_pass b r cache now h1,
      serveAfterTransport_rejected b r cache now fu u p q h2 h3]
  constructor
  · intro hmt
    simp only [if_pos hmt]
    refine ⟨?_, ?_, ?_⟩
    · split <;> rfl
    · intro hle
      rw [if_pos hle]
    · intro hlt
      have hn : ¬ b.opts.maxTries ≤ getCurrentTries b r + 1 := by omega
      rw [if_neg hn]
  · intro hz
    have hn : ¬ b.opts.maxTries > 0 := by omega
    simp [if_neg hn]

/-- Witness for C6: first failure on a threshold-2 engine writes count 1 and
yields the invalid-credentials condition; a failure at cookie count 1
reaches the threshold and yields the forbidden condition. -/
theorem C6_throttleOnRejection_witness :
    ((serveHTTP exEngine (exReq exHdrWrong []) [] 0).2.2 =
        [setCurrentTriesOp exEngine 1] ∧
      (serveHTTP exEngine (exReq exHdrWrong []) [] 0).1 =
        Outcome.errCredentialsInvalid "kataras" "wrong" 1) ∧
    (serveHTTP exEngine (exReq exHdrWrong [("basicmaxtries", "1")]) [] 0).1 =
      Outcome.errCredentialsForbidden "kataras" "wrong" 2 := by
  have h1 := (C6_throttleOnRejection exEngine (exReq exHdrWrong []) [] 0
    "kataras:wrong" "kataras" "wrong" none
    (by decide) (by decide) (by decide)).1 (by decide)
  have h2 := (C6_throttleOnRejection exEngine
    (exReq exHdrWrong [("basicmaxtries", "1")]) [] 0
    "kataras:wrong" "kataras" "wrong" none
    (by decide) (by decide) (by decide)).1 (by decide)
  exact ⟨⟨h1.1, h1.2.2 (by decide)⟩, h2.2.1 (by decide)⟩

/-- Claim C1 counterexample: On an engine with max-tries 2, a request whose
throttle cookie already reads 2 (at the threshold) but whose credentials the
predicate accepts is *not* rejected: the wrapped handler is invoked (and the
cookie is reset), refuting the claim that every subsequent request
presenting such a cookie is rejected even with accepted credentials. -/
theorem C1_throttleTerminal_counterexample :
    exEngine.opts.maxTries = 2 ∧
    getCurrentTries exEngine (exReq exHdrGood [("basicmaxtries", "2")]) = 2 ∧
    (exEngine.allow (exReq exHdrGood [("basicmaxtries", "2")])
      "kataras" "kataras_pass").2 = true ∧
    (serveHTTP exEngine (exReq exHdrGood [("basicmaxtries", "2")]) [] 0).1 =
      Outcome.next
        (attachUser (exReq exHdrGood [("basicmaxtries", "2")]) none
          "kataras" "kataras_pass") := by
  refine ⟨rfl, rfl, rfl, ?_⟩
  decide

/-- Claim C1 amended: With max-tries configured and the client's cookie at or
above the threshold, a subsequent request presenting that cookie is rejected
with the forbidden condition only when its credentials are rejected by the
predicate; a request whose credentials the predicate accepts is not rejected
by the throttle — its cookie is reset and no forbidden condition is
emitted. -/
theorem C1_throttleThresholdAmended (b : BasicAuth) (r : Request)
    (cache : Cache) (now : Time) (fu u p : String)
    (hmt : b.opts.maxTries > 0)
    (htr : b.opts.maxTries ≤ getCurrentTries b r)
    (h1 : (b.opts.httpsOnly && !(isHTTPS r)) = false)
    (h2 : decodeHeader (headerGet r.headers b.authorizationHeader) = some (fu, u, p)) :
    ((b.allow r u p).2 = false →
      (serveHTTP b r cache now).1 =
        Outcome.errCredentialsForbidden u p (getCurrentTries b r + 1)) ∧
    ((b.allow r u p).2 = true →
      (serveHTTP b r cache now).2.2 = [CookieOp.reset b.opts.maxTriesCookie] ∧
      ∀ u' p' n, (serveHTTP b r cache now).1 ≠
        Outcome.errCredentialsForbidden u' p' n) := by
  constructor
  · intro hrej
    rcases hallow : b.allow r u p with ⟨q, ok⟩
    rw [hallow] at hrej
    cases hrej
    rw [serveHTTP_pass b r cache now h1,
        serveAfterTransport_rejected b r cache now fu u p q h2 hallow]
    simp only [if_pos hmt]
    have hle : b.opts.maxTries ≤ (getCurrentTries b r) + 1 := by omega
    rw [if_pos hle]
  · intro hacc
    rcases hallow : b.allow r u p with ⟨q, ok⟩
    rw [hallow] at hacc
    cases hacc
    rw [serveHTTP_pass b r cache now h1,
        serveAfterTransport_verified b r cache now fu u p q h2 hallow]
    have hpos : (if b.opts.maxTries > 0 then getCurrentTries b r else 0) > 0 := by
      rw [if_pos hmt]; omega
    constructor
    · rw [serveVerified_ops]
      rw [if_pos hpos]
    · intro u' p' n
      exact serveVerified_not_forbidden b r q fu u p _ cache now u' p' n

/-- Witness for C1 (amended): at cookie count 5 on a threshold-2 engine,
wrong credentials yield the forbidden condition, while correct credentials
reset the cookie and are not rejected by the throttle. -/
theorem C1_throttleThresholdAmended_witness :
    (serveHTTP exEngine (exReq exHdrWrong [("basicmaxtries", "5")]) [] 0).1 =
      Outcome.errCredentialsForbidden "kataras" "wrong" 6 ∧
    (serveHTTP exEngine (exReq exHdrGood [("basicmaxtries", "5")]) [] 0).2.2 =
      [CookieOp.reset exEngine.opts.maxTriesCookie] := by
  have hw := (C1_throttleThresholdAmended exEngine
    (exReq exHdrWrong [("basicmaxtries", "5")]) [] 0
    "kataras:wrong" "kataras" "wrong"
    (by decide) (by decide) (by decide) (by decide)).1 (by decide)
  have hg := ((C1_throttleThresholdAmended exEngine
    (exReq exHdrGood [("basicmaxtries", "5")]) [] 0
    "kataras:kataras_pass" "kataras" "kataras_pass"
    (by decide) (by decide) (by decide) (by decide)).2 (by decide)).1
  exact ⟨by simpa using hw, hg⟩

/-- Claim C5: A successfully verified request whose identity has a cache entry
with a past expiration instant deletes that entry and terminates with the
credentials-expired condition — the wrapped handler is not invoked and no
new entry is inserted — and the credentials-expired condition arises in no
other situation. -/
theorem C5_expiredLazyDeletion (b : BasicAuth) (r : Request) (cache : Cache)
    (now : Time) :
    (∀ fu u p q t,
      (b.opts.httpsOnly && !(isHTTPS r)) = false →
      decodeHeader (headerGet r.headers b.authorizationHeader) = some (fu, u, p) →
      b.allow r u p = (q, true) →
      cacheLookup cache fu = some (some t) → t < now →
      serveHTTP b r cache now =
        (Outcome.errCredentialsExpired u p, cacheErase cache fu,
          if (if b.opts.maxTries > 0 then getCurrentTries b r else 0) > 0 then
            [CookieOp.reset b.opts.maxTriesCookie] else []) ∧
      cacheLookup (serveHTTP b r cache now).2.1 fu = none) ∧
    (∀ u p, (serveHTTP b r cache now).1 = Outcome.errCredentialsExpired u p →
      ∃ fu q t,
        decodeHeader (headerGet r.headers b.authorizationHeader) = some (fu, u, p) ∧
        b.allow r u p = (q, true) ∧
        cacheLookup cache fu = some (some t) ∧ t < now) := by
  constructor
  · intro fu u p q t h1 h2 h3 h4 h5
    have heq : serveHTTP b r cache now =
        (Outcome.errCredentialsExpired u p, cacheErase cache fu,
          if (if b.opts.maxTries > 0 then getCurrentTries b r else 0) > 0 then
            [CookieOp.reset b.opts.maxTriesCookie] else []) := by
      rw [serveHTTP_pass b r cache now h1,
          serveAfterTransport_verified b r cache now fu u p q h2 h3]
      unfold serveVerified
      rw [h4]
      simp [h5]
    refine ⟨heq, ?_⟩
    rw [heq]
    exact cacheLookup_erase_self cache fu
  · intro u p hout
    by_cases htr : (b.opts.httpsOnly && !(isHTTPS r)) = true
    · unfold serveHTTP at hout
      rw [htr] at hout
      simp at hout
    · rw [serveHTTP_pass b r cache now (by simpa using htr)] at hout
      unfold serveAfterTransport at hout
      dsimp only at hout
      rcases hdec : decodeHeader (headerGet r.headers b.authorizationHeader)
        with _ | ⟨fu0, u0, p0⟩
      · rw [hdec] at hout
        simp at hout
      · rw [hdec] at hout
        dsimp only at hout
        rcases hallow : b.allow r u0 p0 with ⟨q0, ok⟩
        rw [hallow] at hout
        cases ok
        · dsimp only at hout
          by_cases hmt : b.opts.maxTries > 0
          · rw [if_pos hmt] at hout
            by_cases hle : b.opts.maxTries ≤
                (if b.opts.maxTries > 0 then getCurrentTries b r else 0) + 1
            · rw [if_pos hle] at hout
              exact absurd hout (by simp)
            · rw [if_neg hle] at hout
              exact absurd hout (by simp)
          · rw [if_neg hmt] at hout
            exact absurd hout (by simp)
        · dsimp only at hout
          unfold serveVerified at hout
          rcases hc : cacheLookup cache fu0 with _ | eh
          · rw [hc] at hout
            simp at hout
          · rcases eh with _ | t
            · rw [hc] at hout
              simp at hout
            · rw [hc] at hout
              dsimp only at hout
              by_cases hlt : t < now
              · rw [if_pos hlt] at hout
                dsimp only at hout
                injection hout with hu hp
                subst hu
                subst hp
                exact ⟨fu0, q0, t, rfl, hallow, hc, hlt⟩
              · rw [if_neg hlt] at hout
                simp at hout

/-- Witness for C5: an entry expired at instant -5 observed at instant 0 is
deleted and the request fails expired. -/
theorem C5_expiredLazyDeletion_witness :
    serveHTTP exEngine (exReq exHdrGood [])
        [("kataras:kataras_pass", some (-5))] 0 =
      (Outcome.errCredentialsExpired "kataras" "kataras_pass", [], []) ∧
    cacheLookup (serveHTTP exEngine (exReq exHdrGood [])
        [("kataras:kataras_pass", some (-5))] 0).2.1 "kataras:kataras_pass" = none := by
  have h := (C5_expiredLazyDeletion exEngine (exReq exHdrGood [])
    [("kataras:kataras_pass", some (-5))] 0).1
    "kataras:kataras_pass" "kataras" "kataras_pass" none (-5)
    (by decide) (by decide) (by decide) (by decide) (by decide)
  exact ⟨by simpa using h.1, h.2⟩

/-- Claim C8: A single sweep pass removes exactly the entries with no
expiration instant or an expiration before the sweep's start time, leaving
every other entry unchanged; with no max-age configured (all entries stored
without expiration) one pass empties the cache. Stated for stores with
unique keys, the invariant of Go's map. -/
theorem C8_sweepExact (c : Cache) (now : Time)
    (hnd : (c.map Prod.fst).Nodup) :
    (gc c now).1 = c.filter (fun e => !(staleEntry now e.2)) ∧
    ((∀ e ∈ c, e.2 = none) → (gc c now).1 = []) := by
  have h := gc_eq_filter c now hnd
  refine ⟨h, fun hall => ?_⟩
  rw [h]
  rw [List.filter_eq_nil_iff]
  intro e he
  rw [hall e he]
  simp [staleEntry]

/-- Witness for C8: a sweep at instant 0 keeps the unexpired entry and drops
the no-expiration and past-expiration entries. -/
theorem C8_sweepExact_witness :
    (gc [("a", some 5), ("b", none), ("c", some (-1))] 0).1 =
      List.filter (fun e => !(staleEntry 0 e.2))
        [("a", some 5), ("b", none), ("c", some (-1))] ∧
    (gc [("x", none), ("y", none)] 7).1 = [] :=
  ⟨(C8_sweepExact [("a", some 5), ("b", none), ("c", some (-1))] 0 (by decide)).1,
   (C8_sweepExact [("x", none), ("y", none)] 7 (by decide)).2 (by decide)⟩

lemma logout_userSome (b : BasicAuth) (r : Request) (cache : Cache) (v : UserVal)
    (hu : r.ctx.user = some v) :
    logout b r cache =
      logoutFinish b
        (if b.opts.onLogoutClearContext then { r with ctx := clearContext } else r)
        cache
        (match userAccessors v with
         | some (un, pw) => un ++ colonLiteral ++ pw
         | none => "")
        (match userAccessors v with
         | some (un, pw) => un ≠ "" && pw ≠ ""
         | none => false) := by
  unfold logout GetUser
  rw [hu]
  dsimp only
  rcases userAccessors v with _ | ⟨un, pw⟩ <;> rfl

lemma logoutFinish_ctx (b : BasicAuth) (r : Request) (cache : Cache)
    (fu : String) (ok : Bool) :
    ((logoutFinish b r cache fu ok).1).ctx = r.ctx := by
  unfold logoutFinish
  repeat' split
  all_goals rfl

/-- Claim C9 counterexample: A request carrying an authenticated identity (an
opaque user value) whose authorization header does not decode (wrong scheme)
is returned by `logout` completely unchanged: the authorization header is
*not* stripped and the cache is untouched, refuting the claim that the
header(s) are stripped for every request carrying an authenticated
identity. -/
theorem C9_logout_counterexample :
    GetUser exReqOpaque = some (UserVal.opaqueUser 0) ∧
    logout exEngine exReqOpaque [("x:y", none)] = (exReqOpaque, [("x:y", none)]) ∧
    headerGet (logout exEngine exReqOpaque [("x:y", none)]).1.headers
      authorizationHeaderKey = "Bearer abc" := by
  refine ⟨rfl, ?_, ?_⟩ <;> rfl

/-- Claim C9 amended: For a request carrying an authenticated identity:
if clear-context is configured, an identity read on the returned request
yields absence; when an identity to invalidate is determined — a rich
identity exposing nonempty username and password, or otherwise a
successfully re-decoded authorization header — the authorization header(s)
are stripped (both proxy and direct forms when proxy mode is active) so
later credential reads see no credentials, and the identity's cache entry is
removed; when no identity can be determined (no accessors or empty fields,
and an undecodable header), headers and cache are left unchanged. -/
theorem C9_logoutAmended (b : BasicAuth) (r : Request) (cache : Cache)
    (v : UserVal) (hu : r.ctx.user = some v) :
    (b.opts.onLogoutClearContext = true → GetUser (logout b r cache).1 = none) ∧
    (∀ un pw, userAccessors v = some (un, pw) → un ≠ "" → pw ≠ "" →
      (logout b r cache).1.headers =
        headerDel (if b.opts.proxy then headerDel r.headers proxyAuthorizationHeaderKey
                   else r.headers) authorizationHeaderKey ∧
      (logout b r cache).2 = cacheErase cache (un ++ colonLiteral ++ pw) ∧
      headerGet (logout b r cache).1.headers authorizationHeaderKey = "" ∧
      (b.opts.proxy = true →
        headerGet (logout b r cache).1.headers proxyAuthorizationHeaderKey = "")) ∧
    ((∀ un pw, userAccessors v = some (un, pw) → un = "" ∨ pw = "") →
      (∀ fu un pw,
        decodeHeader (headerGet r.headers b.authorizationHeader) = some (fu, un, pw) →
        (logout b r cache).1.headers =
          headerDel (if b.opts.proxy then headerDel r.headers proxyAuthorizationHeaderKey
                     else r.headers) authorizationHeaderKey ∧
        (logout b r cache).2 = cacheErase cache fu) ∧
      (decodeHeader (headerGet r.headers b.authorizationHeader) = none →
        (logout b r cache).1.headers = r.headers ∧
        (logout b r cache).2 = cache)) := by
  have hred := logout_userSome b r cache v hu
  have hR : (if b.opts.onLogoutClearContext = true then
      { r with ctx := clearContext } else r).headers = r.headers := by
    split <;> rfl
  refine ⟨?_, ?_, ?_⟩
  · intro hclear
    rw [hred]
    unfold GetUser
    rw [logoutFinish_ctx]
    rw [hclear]
    rfl
  · intro un pw hacc hun hpw
    rw [hred, hacc]
    dsimp only
    have hok : (un ≠ "" && pw ≠ "" : Bool) = true := by simp [hun, hpw]
    rw [hok, logoutFinish_ok]
    dsimp only
    rw [hR]
    refine ⟨rfl, rfl, headerGet_headerDel_self _ _, fun hproxy => ?_⟩
    rw [hproxy, if_pos rfl]
    rw [headerGet_headerDel_ne _ _ _ (by decide)]
    exact headerGet_headerDel_self _ _
  · intro hfail
    have hok : (match userAccessors v with
        | some (un, pw) => (un ≠ "" && pw ≠ "" : Bool)
        | none => false) = false := by
      rcases hacc : userAccessors v with _ | ⟨un, pw⟩
      · rfl
      · rcases hfail un pw hacc with he | he <;> simp [he]
    rw [hok] at hred
    constructor
    · intro fu un pw hdec
      have hdec' : decodeHeader (headerGet
          (if b.opts.onLogoutClearContext = true then
            { r with ctx := clearContext } else r).headers
          b.authorizationHeader) = some (fu, un, pw) := by
        rw [hR]
        exact hdec
      rw [hred, logoutFinish_decodeSome b _ cache _ fu un pw hdec']
      dsimp only
      rw [hR]
      exact ⟨rfl, rfl⟩
    · intro hdec
      have hdec' : decodeHeader (headerGet
          (if b.opts.onLogoutClearContext = true then
            { r with ctx := clearContext } else r).headers
          b.authorizationHeader) = none := by
        rw [hR]
        exact hdec
      rw [hred, logoutFinish_decodeNone b _ cache _ hdec']
      exact ⟨hR, rfl⟩

/-- Witness for C9 (amended): logging out an authenticated default identity
strips the authorization header and removes the cache entry. -/
theorem C9_logoutAmended_witness :
    (logout exEngine
        (attachUser (exReq exHdrGood []) none "kataras" "kataras_pass")
        [("kataras:kataras_pass", none)]).1.headers =
      headerDel (exReq exHdrGood []).headers authorizationHeaderKey ∧
    (logout exEngine
        (attachUser (exReq exHdrGood []) none "kataras" "kataras_pass")
        [("kataras:kataras_pass", none)]).2 =
      cacheErase [("kataras:kataras_pass", none)] "kataras:kataras_pass" := by
  have h := ((C9_logoutAmended exEngine
    (attachUser (exReq exHdrGood []) none "kataras" "kataras_pass")
    [("kataras:kataras_pass", none)]
    (UserVal.simple "kataras" "kataras_pass") rfl).2.1
    "kataras" "kataras_pass" rfl (by decide) (by decide))
  exact ⟨h.1, h.2.1⟩

end BasicAuthProof
